import Mathlib

/-!
Verification development for the wac compiler (Rust → WAT translator).

The definitions below are a shallow embedding of the translator in
`src/tr.rs` together with the AST/type definitions of `src/ir.rs` and the
assignment-rewriting step of the parser in `src/parsef.rs`.

Modelling conventions, applied uniformly:

* Source spans (`SSpan`) are elided.  The translator only ever clones them
  into error values and never inspects them, so no emission or control-flow
  decision depends on them.
* Rust `HashMap`s are modelled as association lists with replace-on-insert
  semantics (`insertA`); all uses in the translator are keyed lookups except
  for the single iteration over `helper_locals` in `translate_func`, whose
  (run-dependent) iteration order is exposed as an explicit parameter in
  `translate_func_iter` below.
* `i64` literal payloads are modelled as `Int`: the translator never performs
  arithmetic on them, it only prints them, and Rust's decimal `Display`
  agrees with `Int.toString`.
* `f64` literal payloads are carried as their printed decimal text
  (`String`), since `tr.rs` only ever formats them into the output.
* Rust `panic!`/`assert!` aborts are modelled by the `Ab.panic` constructor
  of the abort type; `Result::Err(Error::Type {..})` by `Ab.err`.
* The `Sink` type is not part of the sources under `src/`; where its
  behaviour matters (ordering of the pieces of a translated function) the
  flattening order is modelled from the spec, see `translate_func`.
-/

namespace Wac

/-- Runtime type tags (ir.rs). -/
def TAG_I32 : Int := 1
def TAG_I64 : Int := 2
def TAG_F32 : Int := 3
def TAG_F64 : Int := 4
def TAG_BOOL : Int := 5
def TAG_TYPE : Int := 6
def TAG_STRING : Int := 7
def TAG_LIST : Int := 8
def TAG_ID : Int := 9

/-- Number of bytes at the start of memory that is reserved (tr.rs
`RESERVED_BYTES`); compile-time constants are stored from this location. -/
def RESERVED_BYTES : Nat := 2048

/-- Wasm page size (tr.rs `PAGE_SIZE`). -/
def PAGE_SIZE : Nat := 65536

/-- The wac `Type` enum of ir.rs (named `Ty` here because `Type` is a Lean
keyword). -/
inductive Ty where
  | i32
  | i64
  | f32
  | f64
  | bool
  | type
  | str
  | list
  | id
deriving DecidableEq, Repr

/-- The four wasm primitive value types (ir.rs `WasmType`). -/
inductive WasmType where
  | i32
  | i64
  | f32
  | f64
deriving DecidableEq, Repr

/-- Source `Type::tag` of ir.rs: the `repr(i32)` discriminant. -/
def Ty.tag : Ty → Int
  | .i32 => TAG_I32
  | .i64 => TAG_I64
  | .f32 => TAG_F32
  | .f64 => TAG_F64
  | .bool => TAG_BOOL
  | .type => TAG_TYPE
  | .str => TAG_STRING
  | .list => TAG_LIST
  | .id => TAG_ID

/-- Source `Type::primitive` of ir.rs. -/
def Ty.primitive : Ty → Bool
  | .i32 | .i64 | .f32 | .f64 | .bool | .type => true
  | .str | .list | .id => false

/-- Source `Type::wasm` of ir.rs. -/
def Ty.wasm : Ty → WasmType
  | .i32 => .i32
  | .i64 => .i64
  | .f32 => .f32
  | .f64 => .f64
  | .bool => .i32
  | .type => .i32
  | .str => .i32
  | .list => .i32
  | .id => .i64

/-- Source `WasmType::wac` of ir.rs. -/
def WasmType.wac : WasmType → Ty
  | .i32 => .i32
  | .i64 => .i64
  | .f32 => .f32
  | .f64 => .f64

/-- Rust `{:?}` (Debug) rendering of ir.rs `Type`, used in error messages. -/
def Ty.debug : Ty → String
  | .i32 => "I32"
  | .i64 => "I64"
  | .f32 => "F32"
  | .f64 => "F64"
  | .bool => "Bool"
  | .type => "Type"
  | .str => "String"
  | .list => "List"
  | .id => "Id"

/-- Binary operators (ir.rs `Binop`). -/
inductive Binop where
  | add
  | subtract
  | multiply
  | divide
  | truncDivide
  | remainder
  | bitwiseAnd
  | bitwiseOr
  | bitwiseXor
  | shiftLeft
  | shiftRight
  | is
  | isNot
  | equal
  | notEqual
  | less
  | lessOrEqual
  | greater
  | greaterOrEqual
deriving DecidableEq, Repr

/-- Rust `{:?}` rendering of `Binop`, used in the `panic!` message of the
unimplemented `translate_expr` arms. -/
def Binop.debug : Binop → String
  | .add => "Add"
  | .subtract => "Subtract"
  | .multiply => "Multiply"
  | .divide => "Divide"
  | .truncDivide => "TruncDivide"
  | .remainder => "Remainder"
  | .bitwiseAnd => "BitwiseAnd"
  | .bitwiseOr => "BitwiseOr"
  | .bitwiseXor => "BitwiseXor"
  | .shiftLeft => "ShiftLeft"
  | .shiftRight => "ShiftRight"
  | .is => "Is"
  | .isNot => "IsNot"
  | .equal => "Equal"
  | .notEqual => "NotEqual"
  | .less => "Less"
  | .lessOrEqual => "LessOrEqual"
  | .greater => "Greater"
  | .greaterOrEqual => "GreaterOrEqual"

/-- Unary operators (ir.rs `Unop`). -/
inductive Unop where
  | plus
  | minus
  | not
deriving DecidableEq, Repr

/-- Expressions (ir.rs `Expr`), spans elided (see file header). -/
inductive Expr where
  | bool (b : Bool)
  | int (x : Int)
  | float (text : String)
  | str (s : String)
  | list (xs : List Expr)
  | getVar (name : String)
  | setVar (name : String) (e : Expr)
  | declVar (name : String) (ty : Option Ty) (e : Expr)
  | block (xs : List Expr)
  | functionCall (name : String) (args : List Expr)
  | ifE (pairs : List (Expr × Expr)) (other : Expr)
  | whileE (cond : Expr) (body : Expr)
  | binop (op : Binop) (l r : Expr)
  | unop (op : Unop) (e : Expr)
  | assertType (t : Ty) (e : Expr)
  | cString (s : String)
  | asm (args : List Expr) (t : Option Ty) (code : String)

/-- Source `FunctionType` of ir.rs. -/
structure FunctionType where
  parameter_types : List Ty
  return_type : Option Ty
deriving DecidableEq, Repr

/-- Source `ConstValue` of ir.rs (the stable-snapshot variant: `I32` and `Type`). -/
inductive ConstValue where
  | i32 (x : Int)
  | type (t : Ty)
deriving DecidableEq, Repr

/-- Source `ConstValue::type_` of ir.rs. -/
def ConstValue.type_ : ConstValue → Ty
  | .i32 _ => .i32
  | .type _ => .type

/-- Aborts: `Err(Error::Type { expected, got })` results (spans elided) and
Rust `panic!`/failed `assert!` aborts.  Other `Error` variants
(lex/parse/conflicting definitions) never arise in the embedded fragment. -/
inductive Ab where
  | err (expected got : String)
  | panic (msg : String)
deriving DecidableEq, Repr

/-- Association-list lookup; models `HashMap::get` / `contains_key`. -/
def lookupA {β : Type} : List (String × β) → String → Option β
  | [], _ => none
  | (k2, v) :: rest, k => if k2 = k then some v else lookupA rest k

/-- Association-list insert with replace-on-collision; models
`HashMap::insert`. -/
def insertA {β : Type} : List (String × β) → String → β → List (String × β)
  | [], k, v => [(k, v)]
  | (k2, v2) :: rest, k, v =>
    if k2 = k then (k2, v) :: rest else (k2, v2) :: insertA rest k v

/-- Source `LocalVarInfo` of tr.rs (span elided). -/
structure LocalVarInfo where
  original_name : String
  type_ : Ty
  wasm_name : String
deriving DecidableEq, Repr

/-- Source `GlobalVarInfo` of tr.rs (span elided). -/
structure GlobalVarInfo where
  original_name : String
  type_ : Ty
  wasm_name : String
deriving DecidableEq, Repr

/-- Source `ConstantInfo` of tr.rs (span elided). -/
structure ConstantInfo where
  name : String
  value : ConstValue
deriving DecidableEq, Repr

/-- Source `ScopeEntry` of tr.rs. -/
inductive ScopeEntry where
  | local (info : LocalVarInfo)
  | global (info : GlobalVarInfo)
  | constant (info : ConstantInfo)
deriving DecidableEq, Repr

/-- Source `GlobalScope` of tr.rs (the `decls` list of global-variable declarations
is not consulted by any embedded operation and is elided). -/
structure GlobalScope where
  functions : List (String × FunctionType)
  varmap : List (String × ScopeEntry)
deriving DecidableEq, Repr

/-- Source `LocalScope` of tr.rs.  The stack of local scopes is stored with the
innermost scope at the head (Rust pushes to the end of a `Vec` and searches
it in reverse). -/
structure LS where
  g : GlobalScope
  locals : List (List (String × LocalVarInfo))
  nlabels : Nat
  continue_labels : List Nat
  break_labels : List Nat
  decls : List LocalVarInfo
  helper_locals : List (String × Ty)
deriving DecidableEq, Repr

/-- Source `LocalScope::new`. -/
def LS.new (g : GlobalScope) : LS :=
  { g := g
    locals := [[]]
    nlabels := 0
    continue_labels := []
    break_labels := []
    decls := []
    helper_locals := [] }

/-- Kernel-computable check that a name begins with `$rt_` (the
`String.startsWith` in the embedding would not reduce in the kernel). -/
def rtLocalName (name : String) : Bool :=
  "$rt_".data.isPrefixOf name.data

/-- Source `LocalScope::helper`: register a system helper local.  The two source
`assert!`s are modelled as panics. -/
def LS.helper (ls : LS) (name : String) (t : Ty) : Except Ab LS :=
  if rtLocalName name = false then
    .error (.panic "assertion failed: name.starts_with($rt_)")
  else
    match lookupA ls.helper_locals name with
    | some old =>
      if old = t then
        .ok { ls with helper_locals := insertA ls.helper_locals name t }
      else
        .error (.panic "assertion failed: old_type == type_")
    | none => .ok { ls with helper_locals := insertA ls.helper_locals name t }

/-- Source `LocalScope::push`. -/
def LS.push (ls : LS) : LS :=
  { ls with locals := [] :: ls.locals }

/-- Source `LocalScope::pop` (`self.locals.pop().unwrap()`). -/
def LS.pop (ls : LS) : Except Ab LS :=
  match ls.locals with
  | [] => .error (.panic "called Option::unwrap() on a None value")
  | _ :: rest => .ok { ls with locals := rest }

/-- Source `LocalScope::decl`: declare a user local; its wasm name embeds the index
of the declaration. -/
def LS.decl (ls : LS) (original_name : String) (t : Ty) :
    Except Ab (LocalVarInfo × LS) :=
  let idx := ls.decls.length
  let wasm_name := s!"$l_{idx}_{original_name}"
  let info : LocalVarInfo :=
    { original_name := original_name, type_ := t, wasm_name := wasm_name }
  match ls.locals with
  | [] => .error (.panic "called Option::unwrap() on a None value")
  | innermost :: rest =>
    .ok (info,
      { ls with
        decls := ls.decls ++ [info]
        locals := (innermost ++ [(original_name, info)]) :: rest })

/-- Search a single scope map; Rust `HashMap::get` on the map of one scope
level (the map is keyed, so position within the level is irrelevant;
later inserts shadow per `insertA`... lookup of the unique key). -/
def lookupScope (m : List (String × LocalVarInfo)) (name : String) :
    Option LocalVarInfo :=
  lookupA m name

/-- Source `LocalScope::get`: innermost scope outwards, then the global varmap. -/
def LS.get (ls : LS) (name : String) : Option ScopeEntry :=
  go ls.locals
where
  go : List (List (String × LocalVarInfo)) → Option ScopeEntry
    | [] => lookupA ls.g.varmap name
    | m :: rest =>
      match lookupScope m name with
      | some info => some (.local info)
      | none => go rest

/-- Source `LocalScope::get_or_err`. -/
def LS.get_or_err (ls : LS) (name : String) : Except Ab ScopeEntry :=
  match ls.get name with
  | some e => .ok e
  | none => .error (.err s!"Variable {name}" "NotFound")

/-- Source `LocalScope::getf`. -/
def LS.getf (ls : LS) (name : String) : Option FunctionType :=
  lookupA ls.g.functions name

/-- Source `LocalScope::getf_or_err`. -/
def LS.getf_or_err (ls : LS) (name : String) : Except Ab FunctionType :=
  match ls.getf name with
  | some e => .ok e
  | none => .error (.err s!"Function {name}" "NotFound")

/-- Source `LocalScope::new_label_id`. -/
def LS.new_label_id (ls : LS) : Nat × LS :=
  (ls.nlabels, { ls with nlabels := ls.nlabels + 1 })

/-- The `Out` output assembler state of tr.rs (the stable snapshot, whose
`data_len` starts at `RESERVED_BYTES`).  Only the components the embedded
operations touch are modelled: the data cursor, the two intern maps and the
data segments written to the `data` sink. -/
structure OutState where
  data_len : Nat
  intern_cstr_map : List (String × Nat)
  intern_str_map : List (String × Nat)
  data_segs : List (Nat × List Nat)
deriving DecidableEq, Repr

/-- Source `Out::new` (the sink scaffolding is elided; `data_len` starts at
`RESERVED_BYTES`). -/
def OutState.new : OutState :=
  { data_len := RESERVED_BYTES
    intern_cstr_map := []
    intern_str_map := []
    data_segs := [] }

/-- UTF-8 bytes of a string (Rust `str::as_bytes`). -/
def utf8Bytes (s : String) : List Nat :=
  ((s.data.map String.utf8EncodeChar).flatten).map UInt8.toNat

/-- Little-endian 4-byte encoding of a small non-negative number
(`i32::to_le_bytes` for values in range). -/
def leBytes4 (n : Nat) : List Nat :=
  [n % 256, n / 256 % 256, n / 65536 % 256, n / 16777216 % 256]

/-- Source `Out::data`: reserve 16-byte-aligned room in the data segment, emit the
bytes at the assigned offset, return the offset. -/
def OutState.data (out : OutState) (bytes : List Nat) : Nat × OutState :=
  let reserve_len := (bytes.length + 16 - 1) / 16 * 16
  let ptr := out.data_len
  (ptr,
    { out with
      data_len := reserve_len + ptr
      data_segs := out.data_segs ++ [(ptr, bytes)] })

/-- Source `Out::intern_cstr`: the text plus a NUL terminator, deduplicated. -/
def OutState.intern_cstr (out : OutState) (s : String) : Nat × OutState :=
  match lookupA out.intern_cstr_map s with
  | some ptr => (ptr, out)
  | none =>
    let buffer := utf8Bytes s ++ [0]
    let pr := out.data buffer
    (pr.1, { pr.2 with intern_cstr_map := insertA pr.2.intern_cstr_map s pr.1 })

/-- Source `Out::intern_str`: `[refcnt=1][byte len][utf8 bytes]`, deduplicated. -/
def OutState.intern_str (out : OutState) (s : String) : Nat × OutState :=
  match lookupA out.intern_str_map s with
  | some ptr => (ptr, out)
  | none =>
    let buffer := leBytes4 1 ++ leBytes4 (utf8Bytes s).length ++ utf8Bytes s
    let pr := out.data buffer
    (pr.1, { pr.2 with intern_str_map := insertA pr.2.intern_str_map s pr.1 })

/-- Source `translate_wasm_type` of tr.rs. -/
def translate_wasm_type : WasmType → String
  | .i32 => "i32"
  | .i64 => "i64"
  | .f32 => "f32"
  | .f64 => "f64"

/-- Source `translate_type` of tr.rs. -/
def translate_type (t : Ty) : String :=
  translate_wasm_type t.wasm

/-- Source `DropPolicy` of tr.rs. -/
inductive DropPolicy where
  | drop
  | keep
deriving DecidableEq, Repr

/-- Source `Scope` of tr.rs. -/
inductive Scope where
  | local
  | global
deriving DecidableEq, Repr

/-- The `Display` rendering of `Scope`. -/
def Scope.str : Scope → String
  | .local => "local"
  | .global => "global"

/-- Source `raw_dup` of tr.rs: duplicate TOS through a per-wasm-type helper local. -/
def raw_dup (ls : LS) (wt : WasmType) : Except Ab (LS × List String) := do
  let t := translate_wasm_type wt
  let tmpvar := "$rt_tmp_dup_" ++ t
  let ls ← ls.helper tmpvar wt.wac
  .ok (ls, ["local.tee " ++ tmpvar, "local.get " ++ tmpvar])

/-- Source `retain` of tr.rs: retain the TOS value of the given type. -/
def retain (ls : LS) (t : Ty) (dp : DropPolicy) : Except Ab (LS × List String) :=
  match t with
  | .bool | .i32 | .i64 | .f32 | .f64 | .type =>
    match dp with
    | .drop => .ok (ls, ["drop"])
    | .keep => .ok (ls, [])
  | .str => do
    let pr ← dupFor ls .i32 dp
    .ok (pr.1, pr.2 ++ ["call $f___WAC_str_retain"])
  | .list => do
    let pr ← dupFor ls .i32 dp
    .ok (pr.1, pr.2 ++ ["call $f___WAC_list_retain"])
  | .id => do
    let pr ← dupFor ls .i64 dp
    .ok (pr.1, pr.2 ++ ["call $f___WAC_id_retain"])
where
  /-- Shared shape of the source `match dp` inside each heap arm. -/
  dupFor (ls : LS) (wt : WasmType) : DropPolicy → Except Ab (LS × List String)
    | .drop => .ok (ls, [])
    | .keep => raw_dup ls wt

/-- Source `release` of tr.rs: release the TOS value of the given type. -/
def release (ls : LS) (t : Ty) (dp : DropPolicy) : Except Ab (LS × List String) :=
  match t with
  | .bool | .i32 | .i64 | .f32 | .f64 | .type =>
    match dp with
    | .drop => .ok (ls, ["drop"])
    | .keep => .ok (ls, [])
  | .str => do
    let pr ← dupFor ls .i32 dp
    .ok (pr.1, pr.2 ++ ["call $f___WAC_str_release"])
  | .list => do
    let pr ← dupFor ls .i32 dp
    .ok (pr.1, pr.2 ++ ["call $f___WAC_list_release"])
  | .id => do
    let pr ← dupFor ls .i64 dp
    .ok (pr.1, pr.2 ++ ["call $f___WAC_id_release"])
where
  dupFor (ls : LS) (wt : WasmType) : DropPolicy → Except Ab (LS × List String)
    | .drop => .ok (ls, [])
    | .keep => raw_dup ls wt

/-- Source `release_var` of tr.rs: release the reference held in a variable, leaving
the operand stack unchanged. -/
def release_var (scope : Scope) (wasm_name : String) (t : Ty) : List String :=
  match t with
  | .bool | .i32 | .i64 | .f32 | .f64 | .type => []
  | .str => [scope.str ++ ".get " ++ wasm_name, "call $f___WAC_str_release"]
  | .list => [scope.str ++ ".get " ++ wasm_name, "call $f___WAC_list_release"]
  | .id => [scope.str ++ ".get " ++ wasm_name, "call $f___WAC_id_release"]

/-- Source `cast_to_id` of tr.rs: box an i32 payload with the given tag. -/
def cast_to_id (tag : Int) : List String :=
  ["i64.extend_i32_u", s!"i64.const {tag}", "i64.const 32", "i64.shl", "i64.or"]

/-- Source `common_type` of tr.rs (its unused `LocalScope` argument is elided). -/
def common_type (a b : Ty) : Except Ab Ty :=
  if a = b then .ok a
  else
    match a, b with
    | .i32, .f32 | .f32, .i32 => .ok .f32
    | _, _ => .error (.err a.debug b.debug)

/-- Source `auto_cast` of tr.rs: implicit coercion of TOS from `src` to `dst`. -/
def auto_cast (ls : LS) (src dst : Option Ty) : Except Ab (LS × List String) :=
  match src, dst with
  | some s, some d =>
    if s = d then .ok (ls, [])
    else
      match s, d with
      | .i32, .f32 => .ok (ls, ["f32.convert_i32_s"])
      | .i32, .id => .ok (ls, cast_to_id TAG_I32)
      | .f32, .id => .ok (ls, "i32.reinterpret_f32" :: cast_to_id TAG_F32)
      | .bool, .id => .ok (ls, cast_to_id TAG_BOOL)
      | .str, .id => .ok (ls, cast_to_id TAG_STRING)
      | .list, .id => .ok (ls, cast_to_id TAG_LIST)
      | .id, .i32 => .ok (ls, ["call $f___WAC_raw_id_to_i32"])
      | .id, .f32 => .ok (ls, ["call $f___WAC_raw_id_to_f32"])
      | .id, .bool => .ok (ls, ["call $f___WAC_raw_id_to_bool"])
      | .id, .str => .ok (ls, ["call $f___WAC_raw_id_to_str"])
      | .id, .list => .ok (ls, ["call $f___WAC_raw_id_to_list"])
      | _, _ => .error (.err d.debug s.debug)
  | none, none => .ok (ls, [])
  | some s, none => release ls s .drop
  | none, some d => .error (.err d.debug "Void")

/-- Source `explicit_cast` of tr.rs: adds `f32 → i32` truncation on top of
`auto_cast`. -/
def explicit_cast (ls : LS) (src dst : Option Ty) : Except Ab (LS × List String) :=
  match src, dst with
  | some .f32, some .i32 => .ok (ls, ["i32.trunc_f32_s"])
  | src, dst => auto_cast ls src dst

mutual

/-- Source `guess_type` of tr.rs: the type of an expression, without emission. -/
def guess_type (ls : LS) : Expr → Except Ab Ty
  | .bool _ => .ok .bool
  | .int _ => .ok .i32
  | .float _ => .ok .f32
  | .str _ => .ok .str
  | .list _ => .ok .list
  | .getVar name => do
    let e ← ls.get_or_err name
    match e with
    | .local info => .ok info.type_
    | .global info => .ok info.type_
    | .constant info => .ok info.value.type_
  | .setVar _ _ => .error (.err "any-value" "Void (setvar)")
  | .declVar _ _ _ => .error (.err "any-value" "Void (declvar)")
  | .block xs => guess_last ls xs
  | .functionCall name _ => do
    let ft ← ls.getf_or_err name
    match ft.return_type with
    | some t => .ok t
    | none => .error (.err "any-value" "Void (void-returning-function)")
  | .ifE pairs other =>
    match pairs with
    | [] => guess_type ls other
    | (_, b) :: _ => guess_type ls b
  | .whileE _ _ => .error (.err "any-value" "Void (while)")
  | .binop op l r =>
    match op with
    | .add | .subtract | .multiply => do
      let a ← guess_type ls l
      let b ← guess_type ls r
      common_type a b
    | .divide => .ok .f32
    | .truncDivide | .remainder => .ok .i32
    | .bitwiseAnd | .bitwiseOr | .bitwiseXor | .shiftLeft | .shiftRight => .ok .i32
    | .less | .lessOrEqual | .greater | .greaterOrEqual
    | .equal | .notEqual | .is | .isNot => .ok .bool
  | .unop op e =>
    match op with
    | .minus | .plus => guess_type ls e
    | .not => .ok .bool
  | .assertType t _ => .ok t
  | .cString _ => .ok .i32
  | .asm _ t _ =>
    match t with
    | some t => .ok t
    | none => .error (.err "any-value" "Void (void-asm-expr)")
termination_by e => sizeOf e
decreasing_by all_goals (simp_wf <;> omega)

/-- Source `exprs.last()` dispatch of the `Expr::Block` arm of `guess_type`. -/
def guess_last (ls : LS) : List Expr → Except Ab Ty
  | [] => .error (.err "any-value" "Void (empty-block)")
  | [x] => guess_type ls x
  | _ :: x :: rest => guess_last ls (x :: rest)
termination_by xs => sizeOf xs
decreasing_by all_goals (simp_wf <;> omega)

end

/-- Result of translating one expression: the updated local scope, the
updated output state, and the lines written (in order) to the sink the
caller handed in.  All writes of a call land after all earlier writes to
the same sink, so returning the delta is an exact model of the append-only
sink. -/
abbrev TrOut := LS × OutState × List String

mutual

/-- Source `translate_expr` of tr.rs. -/
def translate_expr (ls : LS) (out : OutState) (etype : Option Ty) :
    Expr → Except Ab TrOut
  | .bool _b =>
    let v : Int := if _b then 1 else 0
    match etype with
    | some .bool => .ok (ls, out, [s!"(i32.const {v})"])
    | some .id =>
      .ok (ls, out,
        s!"(i32.const {v})" :: cast_to_id TAG_BOOL)
    | some t => .error (.err t.debug "Bool")
    | none => .ok (ls, out, [])
  | .int x =>
    match etype with
    | some .i32 => .ok (ls, out, [s!"(i32.const {x})"])
    | some .i64 => .ok (ls, out, [s!"(i64.const {x})"])
    | some .f32 => .ok (ls, out, [s!"(f32.const {x})"])
    | some .f64 => .ok (ls, out, [s!"(f64.const {x})"])
    | some .id => .ok (ls, out, s!"(i32.const {x})" :: cast_to_id TAG_I32)
    | some t => .error (.err t.debug "Int")
    | none => .ok (ls, out, [])
  | .float text =>
    match etype with
    | some .f32 => .ok (ls, out, [s!"(f32.const {text})"])
    | some .f64 => .ok (ls, out, [s!"(f64.const {text})"])
    | some .id =>
      .ok (ls, out,
        s!"(f32.const {text})" :: "i32.reinterpret_f32" :: cast_to_id TAG_F32)
    | some t => .error (.err t.debug "Float")
    | none => .ok (ls, out, [])
  | .str value =>
    match etype with
    | some t => do
      let pr := out.intern_str value
      let r ← retain ls .str .keep
      let c ← auto_cast r.1 (some .str) (some t)
      let ptr := pr.1
      .ok (c.1, pr.2, s!"(i32.const {ptr})" :: r.2 ++ c.2)
    | none => .ok (ls, out, [])
  | .list exprs => do
    let r ← translate_list_items ls out exprs
    let c ← auto_cast r.1 (some .list) etype
    .ok (c.1, r.2.1, "call $f___new_list" :: r.2.2 ++ c.2)
  | .block xs =>
    match xs with
    | [] =>
      match etype with
      | none => .ok (ls, out, [])
      | some t => .error (.err t.debug "Void (empty-block)")
    | x :: rest => do
      let r ← translate_block_items ls.push out etype (x :: rest)
      let ls2 ← r.1.pop
      .ok (ls2, r.2.1, r.2.2)
  | .getVar name => do
    let entry ← ls.get_or_err name
    match entry with
    | .local info =>
      match etype with
      | some etype => do
        let r ← retain ls info.type_ .keep
        let c ← auto_cast r.1 (some info.type_) (some etype)
        .ok (c.1, out, ("local.get " ++ info.wasm_name) :: r.2 ++ c.2)
      | none => .ok (ls, out, [])
    | .global info =>
      match etype with
      | some etype => do
        let r ← retain ls info.type_ .keep
        let c ← auto_cast r.1 (some info.type_) (some etype)
        .ok (c.1, out, ("global.get " ++ info.wasm_name) :: r.2 ++ c.2)
      | none => .ok (ls, out, [])
    | .constant info =>
      match info.value with
      | .i32 x => .ok (ls, out, [s!"i32.const {x}"])
      | .type t =>
        let tg := t.tag
        .ok (ls, out, [s!"i32.const {tg}"])
  | .setVar name setexpr => do
    let entry ← ls.get_or_err name
    match etype with
    | some etype => .error (.err etype.debug "Void (setvar)")
    | none =>
      match entry with
      | .local info => do
        let r ← translate_expr ls out (some info.type_) setexpr
        .ok (r.1, r.2.1,
          r.2.2 ++ release_var .local info.wasm_name info.type_ ++
            ["local.set " ++ info.wasm_name])
      | .global info => do
        let r ← translate_expr ls out (some info.type_) setexpr
        .ok (r.1, r.2.1,
          r.2.2 ++ release_var .global info.wasm_name info.type_ ++
            ["global.set " ++ info.wasm_name])
      | .constant _ => .error (.err "variable" "constant")
  | .declVar name tyAnn setexpr => do
    let t ← match tyAnn with
      | some t => .ok t
      | none => guess_type ls setexpr
    let pr ← ls.decl name t
    match etype with
    | some etype => .error (.err etype.debug "Void (declvar)")
    | none => do
      let r ← translate_expr pr.2 out (some t) setexpr
      .ok (r.1, r.2.1, r.2.2 ++ ["local.set " ++ pr.1.wasm_name])
  | .functionCall fname argexprs => do
    let ft ← ls.getf_or_err fname
    if argexprs.length ≠ ft.parameter_types.length then
      let np := ft.parameter_types.length
      let na := argexprs.length
      .error (.err s!"{np} args" s!"{na} args")
    else do
      let r ← translate_call_args ls out argexprs ft.parameter_types
      let c ← auto_cast r.1 ft.return_type etype
      .ok (c.1, r.2.1, r.2.2 ++ ["call $f_" ++ fname] ++ c.2)
  | .ifE pairs other => do
    let r ← translate_if_pairs ls out etype pairs
    let r2 ← translate_expr r.1 r.2.1 etype other
    .ok (r2.1, r2.2.1, r.2.2 ++ r2.2.2 ++ List.replicate pairs.length "end")
  | .whileE cond body => do
    let pr1 := ls.new_label_id
    let break_label := pr1.1
    let pr2 := pr1.2.new_label_id
    let continue_label := pr2.1
    let ls := { pr2.2 with
      break_labels := break_label :: pr2.2.break_labels
      continue_labels := continue_label :: pr2.2.continue_labels }
    let r1 ← translate_expr ls out (some .bool) cond
    let r2 ← translate_expr r1.1 r1.2.1 none body
    let ls3 := { r2.1 with
      break_labels := r2.1.break_labels.tail
      continue_labels := r2.1.continue_labels.tail }
    .ok (ls3, r2.2.1,
      s!"(block $lbl_{break_label} (loop $lbl_{continue_label}" ::
        r1.2.2 ++ ["i32.eqz", s!"br_if $lbl_{break_label}"] ++ r2.2.2 ++
        [s!"br $lbl_{continue_label}", "))"])
  | .binop op l r =>
    match op with
    | .less => op_cmp ls out etype "lt" l r
    | .lessOrEqual => op_cmp ls out etype "le" l r
    | .greater => op_cmp ls out etype "gt" l r
    | .greaterOrEqual => op_cmp ls out etype "ge" l r
    | .is => do
      let left_type ← guess_type ls l
      let right_type ← guess_type ls r
      let gtype ← common_type left_type right_type
      let r1 ← translate_expr ls out (some gtype) l
      let p1 ← release r1.1 gtype .keep
      let r2 ← translate_expr p1.1 r1.2.1 (some gtype) r
      let p2 ← release r2.1 gtype .keep
      let c ← auto_cast p2.1 (some .bool) etype
      .ok (c.1, r2.2.1,
        r1.2.2 ++ p1.2 ++ r2.2.2 ++ p2.2 ++
          [translate_wasm_type gtype.wasm ++ ".eq"] ++ c.2)
    | .isNot => do
      let left_type ← guess_type ls l
      let right_type ← guess_type ls r
      let gtype ← common_type left_type right_type
      let r1 ← translate_expr ls out (some gtype) l
      let p1 ← release r1.1 gtype .keep
      let r2 ← translate_expr p1.1 r1.2.1 (some gtype) r
      let p2 ← release r2.1 gtype .keep
      let c ← auto_cast p2.1 (some .bool) etype
      .ok (c.1, r2.2.1,
        r1.2.2 ++ p1.2 ++ r2.2.2 ++ p2.2 ++
          [translate_wasm_type gtype.wasm ++ ".ne"] ++ c.2)
    | .add => op_arith_binop ls out etype "add" l r
    | .subtract => op_arith_binop ls out etype "sub" l r
    | .multiply => op_arith_binop ls out etype "mul" l r
    | .divide => do
      let r1 ← translate_expr ls out (some .f32) l
      let r2 ← translate_expr r1.1 r1.2.1 (some .f32) r
      let c ← auto_cast r2.1 (some .f32) etype
      .ok (c.1, r2.2.1, r1.2.2 ++ r2.2.2 ++ ["f32.div"] ++ c.2)
    | .truncDivide => do
      let gltype ← guess_type ls l
      let grtype ← guess_type ls r
      match gltype, grtype with
      | .i32, .i32 => do
        let r1 ← translate_expr ls out (some gltype) l
        let r2 ← translate_expr r1.1 r1.2.1 (some grtype) r
        let c ← auto_cast r2.1 (some .i32) etype
        .ok (c.1, r2.2.1, r1.2.2 ++ r2.2.2 ++ ["i32.div_s"] ++ c.2)
      | .f32, .i32 | .i32, .f32 | .f32, .f32 => do
        let r1 ← translate_expr ls out (some .f32) l
        let r2 ← translate_expr r1.1 r1.2.1 (some .f32) r
        let e ← explicit_cast r2.1 (some .f32) (some .i32)
        let c ← auto_cast e.1 (some .i32) etype
        .ok (c.1, r2.2.1, r1.2.2 ++ r2.2.2 ++ ["f32.div"] ++ e.2 ++ c.2)
      | _, _ =>
        .error (.err (match etype with
          | some t => "Some(" ++ t.debug ++ ")"
          | none => "None") "Int")
    | .bitwiseAnd => op_bitwise_binop ls out etype "and" l r
    | .bitwiseOr => op_bitwise_binop ls out etype "or" l r
    | .bitwiseXor => op_bitwise_binop ls out etype "xor" l r
    | .shiftLeft => op_bitwise_binop ls out etype "shl" l r
    | .shiftRight => op_bitwise_binop ls out etype "shr_u" l r
    | op => .error (.panic ("TODO: translate_expr binop " ++ op.debug))
  | .unop .plus e => do
    let gtype ← guess_type ls e
    match gtype with
    | .f32 | .f64 | .i32 | .i64 => do
      let r ← translate_expr ls out (some gtype) e
      let c ← auto_cast r.1 (some gtype) etype
      .ok (c.1, r.2.1, r.2.2 ++ c.2)
    | _ => .error (.err "numeric" gtype.debug)
  | .unop .minus e => do
    let gtype ← guess_type ls e
    match gtype with
    | .f32 | .f64 => do
      let r ← translate_expr ls out (some gtype) e
      let c ← auto_cast r.1 (some gtype) etype
      .ok (c.1, r.2.1, r.2.2 ++ ["(" ++ translate_type gtype ++ ".neg "] ++ c.2)
    | .i32 | .i64 => do
      let r ← translate_expr ls out (some gtype) e
      let c ← auto_cast r.1 (some gtype) etype
      .ok (c.1, r.2.1,
        r.2.2 ++ [translate_type gtype ++ ".const -1", translate_type gtype ++ ".mul"]
          ++ c.2)
    | _ => .error (.err "numeric" gtype.debug)
  | .unop .not e => do
    let r ← translate_expr ls out (some .bool) e
    .ok (r.1, r.2.1, r.2.2 ++ ["i32.eqz"])
  | .assertType t e => translate_expr ls out (some t) e
  | .cString value =>
    match etype with
    | some .i32 =>
      let pr := out.intern_cstr value
      let ptr := pr.1
      .ok (ls, pr.2, [s!"i32.const {ptr}"])
    | some etype => .error (.err etype.debug "i32 (cstr)")
    | none => .ok (ls, out, [])
  | .asm args t asm_code => do
    let r ← translate_asm_args ls out args
    let c ← auto_cast r.1 t etype
    .ok (c.1, r.2.1, r.2.2 ++ [asm_code] ++ c.2)
termination_by e => sizeOf e
decreasing_by all_goals (simp_wf <;> omega)

/-- The element loop of the `Expr::List` arm of `translate_expr`. -/
def translate_list_items (ls : LS) (out : OutState) :
    List Expr → Except Ab TrOut
  | [] => .ok (ls, out, [])
  | e :: rest => do
    let d ← raw_dup ls .i32
    let r ← translate_expr d.1 out (some .id) e
    let next ← translate_list_items r.1 r.2.1 rest
    .ok (next.1, next.2.1,
      d.2 ++ r.2.2 ++ ["call $f___list_push_raw_no_retain"] ++ next.2.2)
termination_by xs => sizeOf xs
decreasing_by all_goals (simp_wf <;> omega)

/-- The statement walk of the `Expr::Block` arm of `translate_expr`: every
entry but the last is translated with no expected type, the last with the
block's expected type. -/
def translate_block_items (ls : LS) (out : OutState) (etype : Option Ty) :
    List Expr → Except Ab TrOut
  | [] => .ok (ls, out, [])
  | [x] => translate_expr ls out etype x
  | x :: y :: rest => do
    let r ← translate_expr ls out none x
    let next ← translate_block_items r.1 r.2.1 etype (y :: rest)
    .ok (next.1, next.2.1, r.2.2 ++ next.2.2)
termination_by xs => sizeOf xs
decreasing_by all_goals (simp_wf <;> omega)

/-- The zipped argument loop of the `Expr::FunctionCall` arm. -/
def translate_call_args (ls : LS) (out : OutState) :
    List Expr → List Ty → Except Ab TrOut
  | [], _ => .ok (ls, out, [])
  | _, [] => .ok (ls, out, [])
  | a :: as_, p :: ps => do
    let r ← translate_expr ls out (some p) a
    let next ← translate_call_args r.1 r.2.1 as_ ps
    .ok (next.1, next.2.1, r.2.2 ++ next.2.2)
termination_by args => sizeOf args
decreasing_by all_goals (simp_wf <;> omega)

/-- The `(cond, body)` loop of the `Expr::If` arm. -/
def translate_if_pairs (ls : LS) (out : OutState) (etype : Option Ty) :
    List (Expr × Expr) → Except Ab TrOut
  | [] => .ok (ls, out, [])
  | (cond, body) :: rest => do
    let rc ← translate_expr ls out (some .bool) cond
    let resultLine :=
      match etype with
      | some t => [" (result " ++ translate_type t ++ ")"]
      | none => []
    let rb ← translate_expr rc.1 rc.2.1 etype body
    let next ← translate_if_pairs rb.1 rb.2.1 etype rest
    .ok (next.1, next.2.1,
      rc.2.2 ++ ["if"] ++ resultLine ++ rb.2.2 ++ ["else"] ++ next.2.2)
termination_by pairs => sizeOf pairs
decreasing_by all_goals (simp_wf <;> omega)

/-- The argument loop of the `Expr::Asm` arm: every argument is translated
at its guessed type. -/
def translate_asm_args (ls : LS) (out : OutState) :
    List Expr → Except Ab TrOut
  | [] => .ok (ls, out, [])
  | a :: rest => do
    let g ← guess_type ls a
    let r ← translate_expr ls out (some g) a
    let next ← translate_asm_args r.1 r.2.1 rest
    .ok (next.1, next.2.1, r.2.2 ++ next.2.2)
termination_by xs => sizeOf xs
decreasing_by all_goals (simp_wf <;> omega)

/-- Source `op_cmp` of tr.rs: comparison operators; the guessed type of the first
argument is used for both sides. -/
def op_cmp (ls : LS) (out : OutState) (etype : Option Ty) (opname : String)
    (l r : Expr) : Except Ab TrOut := do
  let gtype ← guess_type ls l
  let r1 ← translate_expr ls out (some gtype) l
  let r2 ← translate_expr r1.1 r1.2.1 (some gtype) r
  let instr ← (match gtype with
    | .bool | .i32 | .i64 =>
      .ok (translate_type gtype ++ "." ++ opname ++ "_s")
    | .f32 | .f64 => .ok (translate_type gtype ++ "." ++ opname)
    | .type => .error (.panic "TODO: Type comparisons not yet supported")
    | .str => .error (.panic "TODO: String comparisons not yet supported")
    | .list => .error (.panic "TODO: List comparisons not yet supported")
    | .id => .error (.panic "TODO: Id comparisons not yet supported")
    : Except Ab String)
  let c ← auto_cast r2.1 (some .bool) etype
  .ok (c.1, r2.2.1, r1.2.2 ++ r2.2.2 ++ [instr] ++ c.2)
termination_by 1 + sizeOf l + sizeOf r
decreasing_by all_goals (simp_wf <;> omega)

/-- Source `op_arith_binop` of tr.rs: both sides are translated at the guessed type
of the FIRST argument; the result has that type. -/
def op_arith_binop (ls : LS) (out : OutState) (etype : Option Ty)
    (opname : String) (l r : Expr) : Except Ab TrOut := do
  let gtype ← guess_type ls l
  let r1 ← translate_expr ls out (some gtype) l
  let r2 ← translate_expr r1.1 r1.2.1 (some gtype) r
  let instr ← (match gtype with
    | .i32 | .i64 | .f32 | .f64 =>
      .ok (translate_type gtype ++ "." ++ opname)
    | _ => .error (.err "numeric value" gtype.debug) : Except Ab String)
  let c ← auto_cast r2.1 (some gtype) etype
  .ok (c.1, r2.2.1, r1.2.2 ++ r2.2.2 ++ [instr] ++ c.2)
termination_by 1 + sizeOf l + sizeOf r
decreasing_by all_goals (simp_wf <;> omega)

/-- Source `op_bitwise_binop` of tr.rs: both sides i32, result i32. -/
def op_bitwise_binop (ls : LS) (out : OutState) (etype : Option Ty)
    (opname : String) (l r : Expr) : Except Ab TrOut := do
  let r1 ← translate_expr ls out (some .i32) l
  let r2 ← translate_expr r1.1 r1.2.1 (some .i32) r
  let c ← auto_cast r2.1 (some .i32) etype
  .ok (c.1, r2.2.1, r1.2.2 ++ r2.2.2 ++ ["i32." ++ opname] ++ c.2)
termination_by 1 + sizeOf l + sizeOf r
decreasing_by all_goals (simp_wf <;> omega)

end

/-- Source `Visibility` of ir.rs (`private`/`public` are Lean keywords, hence the
`v` prefix). -/
inductive Visibility where
  | vprivate
  | vpublic
deriving DecidableEq, Repr

/-- Source `Function` of ir.rs (span elided; named `Func` to avoid shadowing
Lean's `Function` namespace). -/
structure Func where
  visibility : Visibility
  name : String
  parameters : List (String × Ty)
  return_type : Option Ty
  body : Expr

/-- The parameter loop at the top of `translate_func`: declare each
parameter as a local and emit its `(param …)` line. -/
def decl_params (ls : LS) : List (String × Ty) → Except Ab (LS × List String)
  | [] => .ok (ls, [])
  | (pname, pt) :: rest => do
    let pr ← ls.decl pname pt
    let next ← decl_params pr.2 rest
    .ok (next.1,
      (" (param " ++ pr.1.wasm_name ++ " " ++ translate_type pt ++ ")") :: next.2)

/-- The `helper_locals.sort_by(|a, b| a.0.cmp(&b.0))` of `translate_func`:
a stable sort by wasm name. -/
def sort_helpers (hl : List (String × Ty)) : List (String × Ty) :=
  hl.mergeSort (fun a b => decide (a.1 ≤ b.1))

/-- Helper-local declaration lines (the first loop of `translate_func`;
note the source writes these without a leading space). -/
def helper_decl_lines (hs : List (String × Ty)) : List String :=
  hs.map (fun p => "(local " ++ p.1 ++ " " ++ translate_type p.2 ++ ")")

/-- Helper-local releases pushed into the epilogue by the first loop of
`translate_func`. -/
def helper_release_lines (hs : List (String × Ty)) : List String :=
  (hs.map (fun p => release_var .local p.1 p.2)).flatten

/-- Declaration lines for non-parameter user locals (second loop of
`translate_func`; the source writes these with a leading space). -/
def local_decl_lines (ds : List LocalVarInfo) : List String :=
  ds.map (fun i => " (local " ++ i.wasm_name ++ " " ++ translate_type i.type_ ++ ")")

/-- Zero-initialization lines for non-parameter user locals (second loop of
`translate_func`). -/
def local_init_lines (ds : List LocalVarInfo) : List String :=
  ds.map (fun i =>
    "(local.set " ++ i.wasm_name ++ " (" ++ translate_type i.type_ ++ ".const 0))")

/-- Epilogue releases for every declared local including the parameters
(third loop of `translate_func`). -/
def decl_release_lines (ds : List LocalVarInfo) : List String :=
  (ds.map (fun i => release_var .local i.wasm_name i.type_)).flatten

/-- The export line written by `translate_func` for a public function. -/
def exports_of (f : Func) : List String :=
  match f.visibility with
  | .vpublic => ["(export \"f_" ++ f.name ++ "\" (func $f_" ++ f.name ++ "))"]
  | .vprivate => []

/-- Everything `translate_func` has computed by the time it assembles the
function text: the final local scope, output state, and the line groups. -/
structure FuncParts where
  ls : LS
  out : OutState
  param_lines : List String
  result_lines : List String
  body_lines : List String

/-- The translation work of `translate_func` before assembly: declare the
parameters, emit the `(result …)` line, translate the body. -/
def translate_func_parts (g : GlobalScope) (out : OutState) (f : Func) :
    Except Ab FuncParts := do
  let dp ← decl_params (LS.new g) f.parameters
  let result_lines := match f.return_type with
    | some rt => [" (result " ++ translate_type rt ++ ")"]
    | none => []
  let r ← translate_expr dp.1 out f.return_type f.body
  .ok { ls := r.1, out := r.2.1, param_lines := dp.2,
        result_lines := result_lines, body_lines := r.2.2 }

/-- Modelled from the spec: the `Sink` type is not among the sources under
`src/`; per spec §4.6 a spawned child sink's content appears at the spawn
position, so the flattened function text is: header, params, result, the
`locals_sink` (helper declarations then user-local declarations), the
`locals_init` sink (zero-inits), the body, the `epilogue` sink (helper
releases then declaration releases), and the closing paren. -/
def assemble_func (f : Func) (p : FuncParts) (hl : List (String × Ty)) :
    List String :=
  let hs := sort_helpers hl
  let nonparams := p.ls.decls.drop f.parameters.length
  ["(func $f_" ++ f.name] ++ p.param_lines ++ p.result_lines ++
    helper_decl_lines hs ++ local_decl_lines nonparams ++
    local_init_lines nonparams ++ p.body_lines ++
    helper_release_lines hs ++ decl_release_lines p.ls.decls ++ [")"]

/-- Source `translate_func` of tr.rs with the iteration order of the
`helper_locals` hash map exposed as a parameter (Rust's `HashMap::into_iter`
yields the entries in an unspecified, run-dependent order); returns the
updated output state, the export lines, and the function lines. -/
def translate_func_iter (g : GlobalScope) (out : OutState) (f : Func)
    (hlOrder : List (String × Ty)) :
    Except Ab (OutState × List String × List String) := do
  let p ← translate_func_parts g out f
  .ok (p.out, exports_of f, assemble_func f p hlOrder)

/-- Source `translate_func` of tr.rs, iterating `helper_locals` in insertion
order (one of the possible hash-map iteration orders). -/
def translate_func (g : GlobalScope) (out : OutState) (f : Func) :
    Except Ab (OutState × List String × List String) := do
  let p ← translate_func_parts g out f
  .ok (p.out, exports_of f, assemble_func f p p.ls.helper_locals)

/-- A sequence of `Out::data` allocations: the assigned offsets and the
final state. -/
def alloc_run (out : OutState) : List (List Nat) → List Nat × OutState
  | [] => ([], out)
  | b :: rest =>
    let pr := out.data b
    let next := alloc_run pr.2 rest
    (pr.1 :: next.1, next.2)

namespace Parse

/-- Expressions of the parser snapshot in parsef.rs, restricted to the
shapes its `Token::Eq` (assignment) arm distinguishes: `GetVar` and
`GetItem` each have a dedicated rewrite, and EVERY other constructor is
sent to the error arm, so representative other shapes (`Int`, `Binop`)
suffice for an exact model of that match.  Spans and the `Cell` type
caches are elided. -/
inductive PExpr where
  | getVar (name : String)
  | setVar (name : String) (e : PExpr)
  | getItem (owner index : PExpr)
  | setItem (owner index rhs : PExpr)
  | int (x : Int)
  | binop (op : Binop) (l r : PExpr)
deriving DecidableEq, Repr

/-- Source `ParseError::InvalidToken` of parser.rs (span elided). -/
inductive ParseErr where
  | invalidToken (expected got : String)
deriving DecidableEq, Repr

/-- The `Token::Eq` arm of `parse_infix` in parsef.rs: after consuming `=`
and parsing the right-hand side, the left operand is rewritten —
`GetVar → SetVar`, `GetItem → SetItem`, anything else is a parse error. -/
def rewrite_assign (lhs rhs : PExpr) : Except ParseErr PExpr :=
  match lhs with
  | .getVar name => .ok (.setVar name rhs)
  | .getItem owner index => .ok (.setItem owner index rhs)
  | _ =>
    .error (.invalidToken "Assignment" "assignments only supported for variables")

end Parse

/-- Decidable equality for `Except`, used to evaluate concrete translator
results in witnesses. -/
instance instDecEqExcept {e a : Type} [DecidableEq e] [DecidableEq a] :
    DecidableEq (Except e a)
  | .error x, .error y =>
    if h : x = y then .isTrue (by rw [h]) else .isFalse (by simp [h])
  | .error _, .ok _ => .isFalse (by simp)
  | .ok _, .error _ => .isFalse (by simp)
  | .ok x, .ok y =>
    if h : x = y then .isTrue (by rw [h]) else .isFalse (by simp [h])

/-- A global scope with no functions and no globals, for concrete runs. -/
def emptyG : GlobalScope := { functions := [], varmap := [] }

/-- A local string variable `v`, as declared by `LocalScope::decl`. -/
def infoV : LocalVarInfo := { original_name := "v", type_ := .str, wasm_name := "$l_0_v" }

/-- A scope holding the single local `v` of type `str`. -/
def lsW : LS :=
  { g := emptyG, locals := [[("v", infoV)]], nlabels := 0, continue_labels := [],
    break_labels := [], decls := [infoV], helper_locals := [] }

/-- The scope `lsW` after the i32 dup helper has been requested. -/
def lsW2 : LS := { lsW with helper_locals := [("$rt_tmp_dup_i32", .i32)] }

/-- Output state after interning the one-byte string `x`. -/
def outX : OutState :=
  { data_len := 2064, intern_cstr_map := [], intern_str_map := [("x", 2048)],
    data_segs := [(2048, [1, 0, 0, 0, 1, 0, 0, 0, 120])] }

/-- A private function `fn g(x str) { }`. -/
def gFunc : Func :=
  { visibility := .vprivate, name := "g", parameters := [("x", .str)],
    return_type := none, body := .block [] }

/-- A public function `fn [pub] f() str { "hi" }`. -/
def fFunc : Func :=
  { visibility := .vpublic, name := "f", parameters := [],
    return_type := some .str, body := .str "hi" }

/-- Output state after interning the string `hi`. -/
def outHi : OutState :=
  { data_len := 2064, intern_cstr_map := [], intern_str_map := [("hi", 2048)],
    data_segs := [(2048, [1, 0, 0, 0, 2, 0, 0, 0, 104, 105])] }

/-- The parameter local `x` of `gFunc`. -/
def infoX : LocalVarInfo := { original_name := "x", type_ := .str, wasm_name := "$l_0_x" }

/-- The scope after declaring the parameter of `gFunc`. -/
def lsG : LS :=
  { g := emptyG, locals := [[("x", infoX)]], nlabels := 0, continue_labels := [],
    break_labels := [], decls := [infoX], helper_locals := [] }

/-- The translated parts of `gFunc`. -/
def pG : FuncParts :=
  { ls := lsG, out := OutState.new, param_lines := [" (param $l_0_x i32)"],
    result_lines := [], body_lines := [] }

/-- A fresh scope holding only the i32 dup helper. -/
def lsH : LS :=
  { g := emptyG, locals := [[]], nlabels := 0, continue_labels := [],
    break_labels := [], decls := [], helper_locals := [("$rt_tmp_dup_i32", .i32)] }

/-- Output state after interning the one-byte string `a`. -/
def outA : OutState :=
  { data_len := 2064, intern_cstr_map := [], intern_str_map := [("a", 2048)],
    data_segs := [(2048, [1, 0, 0, 0, 1, 0, 0, 0, 97])] }

/-- Looking up a key right after inserting it finds the inserted value. -/
theorem lookupA_insertA_self {β : Type} (m : List (String × β)) (k : String) (v : β) :
    lookupA (insertA m k v) k = some v := by
  induction m with
  | nil => simp [insertA, lookupA]
  | cons a rest ih =>
    obtain ⟨k2, v2⟩ := a
    by_cases h : k2 = k <;> simp [insertA, lookupA, h, ih]

/-- The dup-helper name begins with the reserved runtime marker. -/
theorem rt_dup_name_i32 : rtLocalName "$rt_tmp_dup_i32" = true := by decide

/-- Whenever `raw_dup` succeeds it emits a `local.tee`/`local.get` pair on
the per-wasm-type helper local. -/
theorem raw_dup_lines (ls ls2 : LS) (wt : WasmType) (lines : List String)
    (h : raw_dup ls wt = .ok (ls2, lines)) :
    lines = ["local.tee " ++ ("$rt_tmp_dup_" ++ translate_wasm_type wt),
             "local.get " ++ ("$rt_tmp_dup_" ++ translate_wasm_type wt)] := by
  cases hc : rtLocalName ("$rt_tmp_dup_" ++ translate_wasm_type wt) with
  | false => simp [raw_dup, LS.helper, hc, bind, Except.bind] at h
  | true =>
    cases hl2 : lookupA ls.helper_locals ("$rt_tmp_dup_" ++ translate_wasm_type wt) with
    | none =>
      simp [raw_dup, LS.helper, hc, hl2, bind, Except.bind] at h
      exact h.2.symm
    | some old =>
      by_cases he : old = wt.wac
      · simp [raw_dup, LS.helper, hc, hl2, he, bind, Except.bind] at h
        exact h.2.symm
      · simp [raw_dup, LS.helper, hc, hl2, he, bind, Except.bind] at h

/-- Lines emitted by a successful keep-mode `release`, by type class:
nothing for primitive types, a dup plus runtime release call for heap and
id types. -/
theorem release_keep_lines (ls ls2 : LS) (g : Ty) (rl : List String)
    (h : release ls g .keep = .ok (ls2, rl)) :
    (g.primitive = true → rl = []) ∧
    (g = .str → rl = ["local.tee $rt_tmp_dup_i32", "local.get $rt_tmp_dup_i32",
      "call $f___WAC_str_release"]) ∧
    (g = .list → rl = ["local.tee $rt_tmp_dup_i32", "local.get $rt_tmp_dup_i32",
      "call $f___WAC_list_release"]) ∧
    (g = .id → rl = ["local.tee $rt_tmp_dup_i64", "local.get $rt_tmp_dup_i64",
      "call $f___WAC_id_release"]) := by
  refine ⟨?_, ?_, ?_, ?_⟩
  · intro hp
    cases g <;> simp_all [release, Ty.primitive]
  · rintro rfl
    simp only [release] at h
    rcases h2 : raw_dup ls .i32 with e | pr
    · simp [h2, bind, Except.bind, release.dupFor] at h
    · have := raw_dup_lines ls pr.1 .i32 pr.2 (by rw [h2])
      simp [h2, bind, Except.bind, release.dupFor] at h
      rw [← h.2, this]
      rfl
  · rintro rfl
    simp only [release] at h
    rcases h2 : raw_dup ls .i32 with e | pr
    · simp [h2, bind, Except.bind, release.dupFor] at h
    · have := raw_dup_lines ls pr.1 .i32 pr.2 (by rw [h2])
      simp [h2, bind, Except.bind, release.dupFor] at h
      rw [← h.2, this]
      rfl
  · rintro rfl
    simp only [release] at h
    rcases h2 : raw_dup ls .i64 with e | pr
    · simp [h2, bind, Except.bind, release.dupFor] at h
    · have := raw_dup_lines ls pr.1 .i64 pr.2 (by rw [h2])
      simp [h2, bind, Except.bind, release.dupFor] at h
      rw [← h.2, this]
      rfl

/-- The helper sort of `translate_func` produces a list sorted by wasm
name. -/
theorem sort_helpers_sorted (hl : List (String × Ty)) :
    List.Pairwise (fun a b : String × Ty => a.1 ≤ b.1) (sort_helpers hl) := by
  have h := @List.sorted_mergeSort (String × Ty)
    (fun a b => decide (a.1 ≤ b.1))
    (fun a b c hab hbc => by
      simp only [decide_eq_true_eq] at *
      exact le_trans hab hbc)
    (fun a b => by
      simp only [Bool.or_eq_true, decide_eq_true_eq]
      exact le_total a.1 b.1)
    hl
  exact h.imp (fun hab => by simpa using hab)

/-- Two sorted association lists that are permutations of each other and
have no duplicate keys are equal. -/
theorem sorted_nodupkeys_perm_eq :
    ∀ (l1 l2 : List (String × Ty)), l1.Perm l2 →
      List.Pairwise (fun a b : String × Ty => a.1 ≤ b.1) l1 →
      List.Pairwise (fun a b : String × Ty => a.1 ≤ b.1) l2 →
      (l1.map Prod.fst).Nodup → l1 = l2
  | [], l2, hperm, _, _, _ => List.Perm.nil_eq hperm
  | a :: t1, [], hperm, _, _, _ => absurd hperm.symm (by simp)
  | a :: t1, b :: t2, hperm, hs1, hs2, hnd => by
    have hnd2 : (a.1 :: t1.map Prod.fst).Nodup := by
      rw [List.map_cons] at hnd
      exact hnd
    have hab : a = b := by
      by_contra hne
      have ha2 : a ∈ b :: t2 := hperm.subset (List.mem_cons_self a t1)
      have hb1 : b ∈ a :: t1 := hperm.symm.subset (List.mem_cons_self b t2)
      have hat2 : a ∈ t2 := by
        rcases List.mem_cons.mp ha2 with h | h
        · exact absurd h hne
        · exact h
      have hbt1 : b ∈ t1 := by
        rcases List.mem_cons.mp hb1 with h | h
        · exact absurd h.symm hne
        · exact h
      have h1 : a.1 ≤ b.1 := (List.pairwise_cons.mp hs1).1 b hbt1
      have h2 : b.1 ≤ a.1 := (List.pairwise_cons.mp hs2).1 a hat2
      have hkey : a.1 = b.1 := le_antisymm h1 h2
      have : a.1 ∉ t1.map Prod.fst := (List.nodup_cons.mp hnd2).1
      exact this (by
        rw [hkey]
        exact List.mem_map_of_mem Prod.fst hbt1)
    subst hab
    have htp : t1.Perm t2 := (List.perm_cons a).mp hperm
    have := sorted_nodupkeys_perm_eq t1 t2 htp
      (List.pairwise_cons.mp hs1).2 (List.pairwise_cons.mp hs2).2
      (List.nodup_cons.mp hnd2).2
    rw [this]

/-- Sorting the helper-locals list is invariant under reordering its
entries, provided the keys are distinct (as they are in a hash map). -/
theorem sort_helpers_perm_eq (hl1 hl2 : List (String × Ty))
    (hperm : hl1.Perm hl2) (hnd : (hl1.map Prod.fst).Nodup) :
    sort_helpers hl1 = sort_helpers hl2 := by
  have hp1 : (sort_helpers hl1).Perm hl1 := List.mergeSort_perm hl1 _
  have hp2 : (sort_helpers hl2).Perm hl2 := List.mergeSort_perm hl2 _
  have hperm12 : (sort_helpers hl1).Perm (sort_helpers hl2) :=
    (hp1.trans hperm).trans hp2.symm
  have hnd1 : ((sort_helpers hl1).map Prod.fst).Nodup :=
    ((hp1.map Prod.fst).nodup_iff).mpr hnd
  exact sorted_nodupkeys_perm_eq _ _ hperm12
    (sort_helpers_sorted hl1) (sort_helpers_sorted hl2) hnd1

/-- The starting pointer of a run of `Out::data` allocations. -/
theorem alloc_run_head (bs : List (List Nat)) (out : OutState) :
    (alloc_run out bs).1.head? =
      (if bs.isEmpty then none else some out.data_len) := by
  cases bs <;> simp [alloc_run, OutState.data]

/-- Every pointer assigned during a run of allocations is at least the
starting data cursor. -/
theorem alloc_run_ge (bs : List (List Nat)) :
    ∀ (out : OutState) (p : Nat), p ∈ (alloc_run out bs).1 → out.data_len ≤ p := by
  induction bs with
  | nil => intro out p h; simp [alloc_run] at h
  | cons b rest ih =>
    intro out p h
    simp [alloc_run] at h
    rcases h with rfl | h
    · exact le_refl _
    · have h2 := ih (out.data b).2 p h
      have h3 : out.data_len ≤ (out.data b).2.data_len := by
        simp [OutState.data]
      omega

/-- The pointers assigned by consecutive `Out::data` calls never decrease. -/
theorem alloc_run_chain (bs : List (List Nat)) :
    ∀ out : OutState, ((alloc_run out bs).1).Chain' (· ≤ ·) := by
  induction bs with
  | nil => intro out; simp [alloc_run]
  | cons b rest ih =>
    intro out
    have : (alloc_run out (b :: rest)).1 =
        out.data_len :: (alloc_run (out.data b).2 rest).1 := by
      simp [alloc_run, OutState.data]
    rw [this, List.chain'_cons']
    refine ⟨?_, ih _⟩
    intro q hq
    have hmem : q ∈ (alloc_run (out.data b).2 rest).1 :=
      List.mem_of_mem_head? hq
    have h2 := alloc_run_ge rest (out.data b).2 q hmem
    have h3 : out.data_len ≤ (out.data b).2.data_len := by simp [OutState.data]
    omega

/-- C1 counterexample: the claim that arithmetic binops unify operand types
via `common_type` and always succeed on numeric operands is false on the
code: `1 + 2.5` (i32 on the left, f32 on the right) is rejected with a
TypeError instead of being unified to f32, and `7 % 2` panics because the
`Binop::Remainder` arm of `translate_expr` is an unimplemented TODO. -/
theorem arith_counterexample :
    translate_expr (LS.new emptyG) OutState.new (some .f32)
        (.binop .add (.int 1) (.float "2.5")) = .error (.err "I32" "Float") ∧
    translate_expr (LS.new emptyG) OutState.new (some .i32)
        (.binop .remainder (.int 7) (.int 2)) =
      .error (.panic "TODO: translate_expr binop Remainder") := by
  constructor <;>
    simp [translate_expr, op_arith_binop, guess_type, bind, Except.bind, Ty.debug,
      Binop.debug]

/-- C1 (amended): for `+`, `-` and `*` both operands are translated at the
guessed type of the LEFT operand and the result has that type, so a mixed
pair with f32 on the left yields f32; a mixed pair with i32 on the left
fails with a TypeError (no `common_type` unification is performed during
emission); `%` is unimplemented and translation panics. -/
theorem arith_binop_left_guess (ls ls1 ls2 ls3 : LS) (out out1 out2 : OutState)
    (etype : Option Ty) (g : Ty) (l r : Expr) (el er cl : List String)
    (hg : guess_type ls l = .ok g)
    (hnum : g = .i32 ∨ g = .i64 ∨ g = .f32 ∨ g = .f64)
    (hl : translate_expr ls out (some g) l = .ok (ls1, out1, el))
    (hr : translate_expr ls1 out1 (some g) r = .ok (ls2, out2, er))
    (hc : auto_cast ls2 (some g) etype = .ok (ls3, cl)) :
    translate_expr ls out etype (.binop .add l r) =
      .ok (ls3, out2, el ++ er ++ [translate_type g ++ ".add"] ++ cl) ∧
    translate_expr ls out etype (.binop .subtract l r) =
      .ok (ls3, out2, el ++ er ++ [translate_type g ++ ".sub"] ++ cl) ∧
    translate_expr ls out etype (.binop .multiply l r) =
      .ok (ls3, out2, el ++ er ++ [translate_type g ++ ".mul"] ++ cl) ∧
    (∀ (a : Int) (s : String) (e2 : Option Ty) (ls9 : LS) (out9 : OutState),
      translate_expr ls9 out9 e2 (.binop .add (.int a) (.float s)) =
        .error (.err "I32" "Float")) ∧
    (∀ (l2 r2 : Expr) (e2 : Option Ty) (ls9 : LS) (out9 : OutState),
      translate_expr ls9 out9 e2 (.binop .remainder l2 r2) =
        .error (.panic "TODO: translate_expr binop Remainder")) := by
  refine ⟨?_, ?_, ?_, ?_, ?_⟩
  · rcases hnum with rfl | rfl | rfl | rfl <;>
      simp [translate_expr, op_arith_binop, hg, hl, hr, hc, bind, Except.bind,
        translate_type, Ty.wasm, translate_wasm_type]
  · rcases hnum with rfl | rfl | rfl | rfl <;>
      simp [translate_expr, op_arith_binop, hg, hl, hr, hc, bind, Except.bind,
        translate_type, Ty.wasm, translate_wasm_type]
  · rcases hnum with rfl | rfl | rfl | rfl <;>
      simp [translate_expr, op_arith_binop, hg, hl, hr, hc, bind, Except.bind,
        translate_type, Ty.wasm, translate_wasm_type]
  · intro a s e2 ls9 out9
    simp [translate_expr, op_arith_binop, guess_type, bind, Except.bind, Ty.debug]
  · intro l2 r2 e2 ls9 out9
    simp [translate_expr, Binop.debug]

/-- Witness for C1 (amended): `1.5 + 2` at expected type f32 translates to
both operands as f32 followed by `f32.add`. -/
theorem arith_binop_left_guess_witness :
    translate_expr (LS.new emptyG) OutState.new (some .f32)
        (.binop .add (.float "1.5") (.int 2)) =
      .ok (LS.new emptyG, OutState.new,
        ["(f32.const 1.5)", "(f32.const 2)", "f32.add"]) := by
  have h := (arith_binop_left_guess (LS.new emptyG) (LS.new emptyG) (LS.new emptyG)
      (LS.new emptyG) OutState.new OutState.new OutState.new (some .f32) .f32
      (.float "1.5") (.int 2) ["(f32.const 1.5)"] ["(f32.const 2)"] []
      (by simp [guess_type])
      (by tauto)
      (by simp [translate_expr] <;> decide)
      (by simp [translate_expr] <;> decide)
      (by simp [auto_cast])).1
  simpa using h

/-- C2 counterexample: not every declared local is zero-initialized in the
prologue.  For `fn g(x str) {}` the parameter `x` is declared and released
in the epilogue but no `(local.set $l_0_x (i32.const 0))` is emitted; for
`fn [pub] f() str { "hi" }` the dup helper local is declared and never
zero-initialized either. -/
theorem func_prologue_counterexample :
    translate_func emptyG OutState.new gFunc =
      .ok (OutState.new, [],
        ["(func $f_g", " (param $l_0_x i32)", "local.get $l_0_x",
         "call $f___WAC_str_release", ")"]) ∧
    "(local.set $l_0_x (i32.const 0))" ∉
      (["(func $f_g", " (param $l_0_x i32)", "local.get $l_0_x",
        "call $f___WAC_str_release", ")"] : List String) ∧
    translate_func emptyG OutState.new fFunc =
      .ok (outHi, ["(export \"f_f\" (func $f_f))"],
        ["(func $f_f", " (result i32)", "(local $rt_tmp_dup_i32 i32)",
         "(i32.const 2048)", "local.tee $rt_tmp_dup_i32", "local.get $rt_tmp_dup_i32",
         "call $f___WAC_str_retain", ")"]) ∧
    "(local.set $rt_tmp_dup_i32 (i32.const 0))" ∉
      (["(func $f_f", " (result i32)", "(local $rt_tmp_dup_i32 i32)",
        "(i32.const 2048)", "local.tee $rt_tmp_dup_i32", "local.get $rt_tmp_dup_i32",
        "call $f___WAC_str_retain", ")"] : List String) := by
  have hu : utf8Bytes "hi" = [104, 105] := by decide
  refine ⟨?_, by decide, ?_, by decide⟩
  · simp [translate_func, translate_func_parts, decl_params, LS.decl, LS.new, gFunc,
      translate_expr, bind, Except.bind, assemble_func, sort_helpers,
      helper_decl_lines, helper_release_lines, local_decl_lines, local_init_lines,
      decl_release_lines, exports_of, release_var, Scope.str, emptyG]
    decide
  · simp [translate_func, translate_func_parts, decl_params, LS.decl, LS.new, fFunc,
      translate_expr, OutState.intern_str, OutState.data, lookupA, insertA, leBytes4,
      hu, retain, retain.dupFor, raw_dup, LS.helper, rt_dup_name_i32, auto_cast,
      bind, Except.bind, assemble_func, sort_helpers, helper_decl_lines,
      helper_release_lines, local_decl_lines, local_init_lines, decl_release_lines,
      exports_of, release_var, Scope.str, emptyG, outHi, OutState.new,
      translate_wasm_type, translate_type, Ty.wasm, WasmType.wac]
    decide

/-- C2 (amended): in every translated function the prologue declares the
helper locals sorted by name and zero-initializes exactly the non-parameter
user locals (parameters and helper locals are not zero-initialized), the
body follows, and the epilogue emits `release_var` for every helper local
and for every declared local including the parameters. -/
theorem func_prologue_epilogue (g : GlobalScope) (out : OutState) (f : Func)
    (p : FuncParts) (hp : translate_func_parts g out f = .ok p) :
    translate_func g out f =
      .ok (p.out, exports_of f,
        (["(func $f_" ++ f.name] ++ p.param_lines ++ p.result_lines ++
          helper_decl_lines (sort_helpers p.ls.helper_locals) ++
          local_decl_lines (p.ls.decls.drop f.parameters.length) ++
          local_init_lines (p.ls.decls.drop f.parameters.length)) ++
        p.body_lines ++
        (helper_release_lines (sort_helpers p.ls.helper_locals) ++
          decl_release_lines p.ls.decls ++ [")"])) ∧
    List.Pairwise (fun a b : String × Ty => a.1 ≤ b.1)
      (sort_helpers p.ls.helper_locals) ∧
    (∀ i ∈ p.ls.decls.drop f.parameters.length,
      ("(local.set " ++ i.wasm_name ++ " (" ++ translate_type i.type_ ++ ".const 0))") ∈
        local_init_lines (p.ls.decls.drop f.parameters.length)) ∧
    (∀ i ∈ p.ls.decls,
      (release_var .local i.wasm_name i.type_).Sublist (decl_release_lines p.ls.decls)) ∧
    (∀ h ∈ sort_helpers p.ls.helper_locals,
      ("(local " ++ h.1 ++ " " ++ translate_type h.2 ++ ")") ∈
        helper_decl_lines (sort_helpers p.ls.helper_locals) ∧
      (release_var .local h.1 h.2).Sublist
        (helper_release_lines (sort_helpers p.ls.helper_locals))) := by
  refine ⟨?_, sort_helpers_sorted _, ?_, ?_, ?_⟩
  · simp [translate_func, hp, bind, Except.bind, assemble_func]
  · intro i hi
    exact List.mem_map_of_mem _ hi
  · intro i hi
    exact List.sublist_flatten_of_mem (List.mem_map_of_mem _ hi)
  · intro h hh
    exact ⟨List.mem_map_of_mem _ hh,
      List.sublist_flatten_of_mem (List.mem_map_of_mem _ hh)⟩

/-- Witness for C2 (amended): the assembled output of `fn g(x str) {}`. -/
theorem func_prologue_epilogue_witness :
    translate_func emptyG OutState.new gFunc =
      .ok (OutState.new, [],
        ["(func $f_g", " (param $l_0_x i32)", "local.get $l_0_x",
         "call $f___WAC_str_release", ")"]) := by
  have hp : translate_func_parts emptyG OutState.new gFunc = .ok pG := by
    simp [translate_func_parts, decl_params, LS.decl, LS.new, gFunc, translate_expr,
      bind, Except.bind, translate_type, Ty.wasm, translate_wasm_type, emptyG,
      pG, lsG, infoX]
    decide
  have h := (func_prologue_epilogue emptyG OutState.new gFunc pG hp).1
  simpa [pG, lsG, infoX, gFunc, sort_helpers, helper_decl_lines,
    helper_release_lines, local_decl_lines, local_init_lines, decl_release_lines,
    release_var, Scope.str, exports_of, translate_type, Ty.wasm,
    translate_wasm_type] using h

/-- C3: an `is` / `is not` expression translates both operands at the
`common_type` of their guessed types, releases each operand (keeping its
bits via a dup) after it is pushed when that type is heap or id (and emits
no release for primitive types), then emits the wasm `eq`/`ne` of the
common type's wasm type, and the result is produced as `bool`. -/
theorem is_binop_common_type_release
    (ls ls1 ls2 ls3 ls4 ls5 : LS) (out out1 out2 : OutState) (etype : Option Ty)
    (gl gr g : Ty) (l r : Expr) (el rl1 er rl2 cl : List String)
    (hgl : guess_type ls l = .ok gl)
    (hgr : guess_type ls r = .ok gr)
    (hct : common_type gl gr = .ok g)
    (htl : translate_expr ls out (some g) l = .ok (ls1, out1, el))
    (hrel1 : release ls1 g .keep = .ok (ls2, rl1))
    (htr : translate_expr ls2 out1 (some g) r = .ok (ls3, out2, er))
    (hrel2 : release ls3 g .keep = .ok (ls4, rl2))
    (hcast : auto_cast ls4 (some .bool) etype = .ok (ls5, cl)) :
    translate_expr ls out etype (.binop .is l r) =
      .ok (ls5, out2, el ++ rl1 ++ er ++ rl2 ++
        [translate_wasm_type g.wasm ++ ".eq"] ++ cl) ∧
    translate_expr ls out etype (.binop .isNot l r) =
      .ok (ls5, out2, el ++ rl1 ++ er ++ rl2 ++
        [translate_wasm_type g.wasm ++ ".ne"] ++ cl) ∧
    (g.primitive = true → rl1 = [] ∧ rl2 = []) ∧
    (g.primitive = false →
      rl1 = ["local.tee " ++ ("$rt_tmp_dup_" ++ translate_wasm_type g.wasm),
             "local.get " ++ ("$rt_tmp_dup_" ++ translate_wasm_type g.wasm),
             "call $f___WAC_" ++
               (match g with | .str => "str" | .list => "list" | _ => "id") ++
               "_release"] ∧
      rl2 = rl1) := by
  have hk1 := release_keep_lines ls1 ls2 g rl1 hrel1
  have hk2 := release_keep_lines ls3 ls4 g rl2 hrel2
  refine ⟨?_, ?_, ?_, ?_⟩
  · simp [translate_expr, hgl, hgr, hct, htl, hrel1, htr, hrel2, hcast,
      bind, Except.bind]
  · simp [translate_expr, hgl, hgr, hct, htl, hrel1, htr, hrel2, hcast,
      bind, Except.bind]
  · intro hp
    exact ⟨hk1.1 hp, hk2.1 hp⟩
  · intro hp
    cases g with
    | str =>
      refine ⟨?_, ?_⟩
      · simpa using hk1.2.1 rfl
      · rw [hk2.2.1 rfl, hk1.2.1 rfl]
    | list =>
      refine ⟨?_, ?_⟩
      · simpa using hk1.2.2.1 rfl
      · rw [hk2.2.2.1 rfl, hk1.2.2.1 rfl]
    | id =>
      refine ⟨?_, ?_⟩
      · simpa using hk1.2.2.2 rfl
      · rw [hk2.2.2.2 rfl, hk1.2.2.2 rfl]
    | i32 => simp [Ty.primitive] at hp
    | i64 => simp [Ty.primitive] at hp
    | f32 => simp [Ty.primitive] at hp
    | f64 => simp [Ty.primitive] at hp
    | bool => simp [Ty.primitive] at hp
    | type => simp [Ty.primitive] at hp

/-- Witness for C3: `"a" is "a"` at expected type bool pushes each interned
string, releases each after pushing (dup + `str_release`), and compares
with `i32.eq`. -/
theorem is_binop_witness :
    translate_expr (LS.new emptyG) OutState.new (some .bool)
        (.binop .is (.str "a") (.str "a")) =
      .ok (lsH, outA,
        ["(i32.const 2048)", "local.tee $rt_tmp_dup_i32", "local.get $rt_tmp_dup_i32",
         "call $f___WAC_str_retain",
         "local.tee $rt_tmp_dup_i32", "local.get $rt_tmp_dup_i32",
         "call $f___WAC_str_release",
         "(i32.const 2048)", "local.tee $rt_tmp_dup_i32", "local.get $rt_tmp_dup_i32",
         "call $f___WAC_str_retain",
         "local.tee $rt_tmp_dup_i32", "local.get $rt_tmp_dup_i32",
         "call $f___WAC_str_release",
         "i32.eq"]) := by
  have hu : utf8Bytes "a" = [97] := by decide
  have h := (is_binop_common_type_release (LS.new emptyG) lsH lsH lsH lsH lsH
      OutState.new outA outA (some .bool) .str .str .str (.str "a") (.str "a")
      ["(i32.const 2048)", "local.tee $rt_tmp_dup_i32", "local.get $rt_tmp_dup_i32",
       "call $f___WAC_str_retain"]
      ["local.tee $rt_tmp_dup_i32", "local.get $rt_tmp_dup_i32",
       "call $f___WAC_str_release"]
      ["(i32.const 2048)", "local.tee $rt_tmp_dup_i32", "local.get $rt_tmp_dup_i32",
       "call $f___WAC_str_retain"]
      ["local.tee $rt_tmp_dup_i32", "local.get $rt_tmp_dup_i32",
       "call $f___WAC_str_release"]
      []
      (by simp [guess_type])
      (by simp [guess_type])
      (by simp [common_type])
      (by
        simp [translate_expr, OutState.intern_str, OutState.data, lookupA, insertA,
          retain, retain.dupFor, raw_dup, LS.helper, rt_dup_name_i32, auto_cast,
          bind, Except.bind, lsH, outA, OutState.new, LS.new, emptyG, leBytes4, hu]
        decide)
      (by
        simp [release, release.dupFor, raw_dup, LS.helper, rt_dup_name_i32,
          lookupA, insertA, bind, Except.bind, lsH]
        decide)
      (by
        simp [translate_expr, OutState.intern_str, OutState.data, lookupA, insertA,
          retain, retain.dupFor, raw_dup, LS.helper, rt_dup_name_i32, auto_cast,
          bind, Except.bind, lsH, outA, leBytes4, hu]
        decide)
      (by
        simp [release, release.dupFor, raw_dup, LS.helper, rt_dup_name_i32,
          lookupA, insertA, bind, Except.bind, lsH]
        decide)
      (by simp [auto_cast])).1
  simpa [translate_wasm_type, Ty.wasm] using h

/-- C4: `//` has result type i32: with both guesses i32 the operands are
translated at i32 and divided with `i32.div_s`; when either guess is f32
both operands are translated at f32, divided with `f32.div`, and the
quotient truncated with an explicit `i32.trunc_f32_s`; either way the i32
result is then cast to the expected type. -/
theorem trunc_divide_translation (ls : LS) (out : OutState) (etype : Option Ty)
    (gl gr : Ty) (l r : Expr)
    (hgl : guess_type ls l = .ok gl)
    (hgr : guess_type ls r = .ok gr) :
    (gl = .i32 → gr = .i32 →
      ∀ (ls1 ls2 ls3 : LS) (out1 out2 : OutState) (el er cl : List String),
        translate_expr ls out (some .i32) l = .ok (ls1, out1, el) →
        translate_expr ls1 out1 (some .i32) r = .ok (ls2, out2, er) →
        auto_cast ls2 (some .i32) etype = .ok (ls3, cl) →
        translate_expr ls out etype (.binop .truncDivide l r) =
          .ok (ls3, out2, el ++ er ++ ["i32.div_s"] ++ cl)) ∧
    ((gl = .f32 ∧ gr = .i32) ∨ (gl = .i32 ∧ gr = .f32) ∨ (gl = .f32 ∧ gr = .f32) →
      ∀ (ls1 ls2 ls3 : LS) (out1 out2 : OutState) (el er cl : List String),
        translate_expr ls out (some .f32) l = .ok (ls1, out1, el) →
        translate_expr ls1 out1 (some .f32) r = .ok (ls2, out2, er) →
        auto_cast ls2 (some .i32) etype = .ok (ls3, cl) →
        translate_expr ls out etype (.binop .truncDivide l r) =
          .ok (ls3, out2, el ++ er ++ ["f32.div", "i32.trunc_f32_s"] ++ cl)) := by
  constructor
  · rintro rfl rfl ls1 ls2 ls3 out1 out2 el er cl h1 h2 h3
    conv_lhs => rw [translate_expr.eq_def]
    simp [hgl, hgr, h1, h2, h3, explicit_cast, bind, Except.bind]
  · rintro (⟨rfl, rfl⟩ | ⟨rfl, rfl⟩ | ⟨rfl, rfl⟩) ls1 ls2 ls3 out1 out2 el er cl h1 h2 h3 <;>
      (conv_lhs => rw [translate_expr.eq_def]) <;>
      simp [hgl, hgr, h1, h2, h3, explicit_cast, bind, Except.bind]

/-- Witness for C4: `8 // 2` at expected type i32 emits the two constants
and `i32.div_s`. -/
theorem trunc_divide_translation_witness :
    translate_expr (LS.new emptyG) OutState.new (some .i32)
        (.binop .truncDivide (.int 8) (.int 2)) =
      .ok (LS.new emptyG, OutState.new,
        ["(i32.const 8)", "(i32.const 2)", "i32.div_s"]) := by
  have h := (trunc_divide_translation (LS.new emptyG) OutState.new (some .i32)
      .i32 .i32 (.int 8) (.int 2) (by simp [guess_type]) (by simp [guess_type])).1
      rfl rfl (LS.new emptyG) (LS.new emptyG) (LS.new emptyG) OutState.new OutState.new
      ["(i32.const 8)"] ["(i32.const 2)"] []
      (by simp [translate_expr] <;> decide)
      (by simp [translate_expr] <;> decide)
      (by simp [auto_cast])
  simpa using h

/-- C5: data-segment allocations assign offsets monotonically starting from
`RESERVED_BYTES = 2048`, and every allocation reserves its requested length
rounded up to a multiple of 16 bytes. -/
theorem data_layout_monotone (bs : List (List Nat)) :
    ((alloc_run OutState.new bs).1).Chain' (· ≤ ·) ∧
    (alloc_run OutState.new bs).1.head? =
      (if bs.isEmpty then none else some RESERVED_BYTES) ∧
    RESERVED_BYTES = 2048 ∧
    (∀ (out : OutState) (b : List Nat),
      (out.data b).1 = out.data_len ∧
      (out.data b).2.data_len = (b.length + 16 - 1) / 16 * 16 + out.data_len ∧
      (b.length + 16 - 1) / 16 * 16 % 16 = 0 ∧
      b.length ≤ (b.length + 16 - 1) / 16 * 16) := by
  refine ⟨alloc_run_chain bs OutState.new, ?_, rfl, ?_⟩
  · rw [alloc_run_head]; rfl
  · intro out b
    refine ⟨rfl, rfl, ?_, ?_⟩ <;> omega

/-- C6 counterexample: an assignment whose left operand is a `GetItem` does
NOT fail with a ParseError; the parser rewrites it into a `SetItem`. -/
theorem assign_getitem_counterexample :
    Parse.rewrite_assign (.getItem (.getVar "a") (.int 0)) (.int 1) =
      .ok (.setItem (.getVar "a") (.int 0) (.int 1)) := rfl

/-- C6 (amended): the assignment arm of the parser rewrites a `get-var`
left operand into a `set-var` and a `get-item` left operand into a
`set-item`; any other left operand fails with a ParseError (non-lvalue
assignment target). -/
theorem assign_rewrite_cases (lhs rhs : Parse.PExpr) :
    (∀ n, lhs = .getVar n → Parse.rewrite_assign lhs rhs = .ok (.setVar n rhs)) ∧
    (∀ o i, lhs = .getItem o i →
      Parse.rewrite_assign lhs rhs = .ok (.setItem o i rhs)) ∧
    ((∀ n, lhs ≠ .getVar n) → (∀ o i, lhs ≠ .getItem o i) →
      Parse.rewrite_assign lhs rhs =
        .error (.invalidToken "Assignment" "assignments only supported for variables")) := by
  refine ⟨?_, ?_, ?_⟩
  · intro n h; subst h; rfl
  · intro o i h; subst h; rfl
  · intro h1 h2
    cases lhs with
    | getVar n => exact absurd rfl (h1 n)
    | getItem o i => exact absurd rfl (h2 o i)
    | setVar n e => rfl
    | setItem a b c => rfl
    | int x => rfl
    | binop op a b => rfl

/-- Witness for C6 (amended): an integer literal on the left of `=` is a
parse error. -/
theorem assign_rewrite_cases_witness :
    Parse.rewrite_assign (.int 0) (.int 1) =
      .error (.invalidToken "Assignment" "assignments only supported for variables") :=
  (assign_rewrite_cases (.int 0) (.int 1)).2.2
    (fun n h => nomatch h) (fun o i h => nomatch h)

/-- C7: interning a string (or C-string) a second time returns the same
data-segment pointer and leaves the output state unchanged — no new data is
allocated. -/
theorem intern_idempotent (out : OutState) (s : String) :
    (out.intern_str s).2.intern_str s = out.intern_str s ∧
    (out.intern_cstr s).2.intern_cstr s = out.intern_cstr s := by
  constructor
  · rcases h : lookupA out.intern_str_map s with _ | ptr
    · simp [OutState.intern_str, h, lookupA_insertA_self]
    · simp [OutState.intern_str, h]
  · rcases h : lookupA out.intern_cstr_map s with _ | ptr
    · simp [OutState.intern_cstr, h, lookupA_insertA_self]
    · simp [OutState.intern_cstr, h]

/-- C8: translation of a function is deterministic.  The embedded
translator is a pure function, and the only run-to-run nondeterminism in
the source — the iteration order of the `helper_locals` hash map in
`translate_func` — does not affect the output, because the entries are
sorted by name before use: any two iteration orders (permutations with the
distinct keys a hash map guarantees) yield identical output. -/
theorem translate_func_deterministic (g : GlobalScope) (out : OutState) (f : Func)
    (hl1 hl2 : List (String × Ty)) (hperm : hl1.Perm hl2)
    (hnd : (hl1.map Prod.fst).Nodup) :
    translate_func_iter g out f hl1 = translate_func_iter g out f hl2 := by
  unfold translate_func_iter
  cases hp : translate_func_parts g out f with
  | error e => rfl
  | ok p =>
    simp [bind, Except.bind, assemble_func, helper_decl_lines,
      helper_release_lines, sort_helpers_perm_eq hl1 hl2 hperm hnd]

/-- Witness for C8: two opposite iteration orders of a two-entry helper
map produce the same translated function. -/
theorem translate_func_deterministic_witness :
    translate_func_iter emptyG OutState.new fFunc
        [("$rt_tmp_dup_i32", .i32), ("$rt_tmp_dup_i64", .i64)] =
      translate_func_iter emptyG OutState.new fFunc
        [("$rt_tmp_dup_i64", .i64), ("$rt_tmp_dup_i32", .i32)] :=
  translate_func_deterministic emptyG OutState.new fFunc
    [("$rt_tmp_dup_i32", .i32), ("$rt_tmp_dup_i64", .i64)]
    [("$rt_tmp_dup_i64", .i64), ("$rt_tmp_dup_i32", .i32)]
    (by decide) (by decide)

/-- C9: an integer literal at expected type i32/i64/f32/f64 emits exactly
one constant of that wasm type (no separate cast instruction); at expected
type id it emits an i32 constant boxed with tag 1 (i32); at expected type
bool/type/str/list it fails with a TypeError whose got-description is
`Int`; with no expected type nothing is emitted. -/
theorem int_literal_translation (ls : LS) (out : OutState) (x : Int) :
    translate_expr ls out (some .i32) (.int x) = .ok (ls, out, [s!"(i32.const {x})"]) ∧
    translate_expr ls out (some .i64) (.int x) = .ok (ls, out, [s!"(i64.const {x})"]) ∧
    translate_expr ls out (some .f32) (.int x) = .ok (ls, out, [s!"(f32.const {x})"]) ∧
    translate_expr ls out (some .f64) (.int x) = .ok (ls, out, [s!"(f64.const {x})"]) ∧
    translate_expr ls out (some .id) (.int x) =
      .ok (ls, out, [s!"(i32.const {x})", "i64.extend_i32_u", "i64.const 1",
        "i64.const 32", "i64.shl", "i64.or"]) ∧
    translate_expr ls out (some .bool) (.int x) = .error (.err "Bool" "Int") ∧
    translate_expr ls out (some .type) (.int x) = .error (.err "Type" "Int") ∧
    translate_expr ls out (some .str) (.int x) = .error (.err "String" "Int") ∧
    translate_expr ls out (some .list) (.int x) = .error (.err "List" "Int") ∧
    translate_expr ls out none (.int x) = .ok (ls, out, []) := by
  refine ⟨?_, ?_, ?_, ?_, ?_, ?_, ?_, ?_, ?_, ?_⟩ <;>
    simp [translate_expr, cast_to_id, TAG_I32, Ty.debug]
  all_goals decide

/-- C10: translating an assignment to an existing local or global variable
emits the complete right-hand side first, then the release of the
variable's old contents, then the `local.set`/`global.set` store — so the
right-hand side runs while the old value is still stored and retained. -/
theorem set_var_release_after_rhs (ls ls1 : LS) (out out1 : OutState)
    (name : String) (rhs : Expr) (rl : List String) :
    (∀ info : LocalVarInfo, ls.get name = some (.local info) →
      translate_expr ls out (some info.type_) rhs = .ok (ls1, out1, rl) →
      translate_expr ls out none (.setVar name rhs) =
        .ok (ls1, out1, rl ++ release_var .local info.wasm_name info.type_ ++
          ["local.set " ++ info.wasm_name])) ∧
    (∀ info : GlobalVarInfo, ls.get name = some (.global info) →
      translate_expr ls out (some info.type_) rhs = .ok (ls1, out1, rl) →
      translate_expr ls out none (.setVar name rhs) =
        .ok (ls1, out1, rl ++ release_var .global info.wasm_name info.type_ ++
          ["global.set " ++ info.wasm_name])) := by
  constructor
  · intro info hget hrhs
    simp [translate_expr, LS.get_or_err, hget, hrhs, bind, Except.bind]
  · intro info hget hrhs
    simp [translate_expr, LS.get_or_err, hget, hrhs, bind, Except.bind]

/-- Witness for C10: `v = "x"` for a local string variable `v` translates
the RHS (intern + retain), then releases the old contents of `v`, then
stores. -/
theorem set_var_release_after_rhs_witness :
    translate_expr lsW OutState.new none (.setVar "v" (.str "x")) =
      .ok (lsW2, outX,
        ["(i32.const 2048)", "local.tee $rt_tmp_dup_i32", "local.get $rt_tmp_dup_i32",
         "call $f___WAC_str_retain", "local.get $l_0_v", "call $f___WAC_str_release",
         "local.set $l_0_v"]) := by
  have hu : utf8Bytes "x" = [120] := by decide
  have h := (set_var_release_after_rhs lsW lsW2 OutState.new outX "v" (.str "x")
      ["(i32.const 2048)", "local.tee $rt_tmp_dup_i32", "local.get $rt_tmp_dup_i32",
       "call $f___WAC_str_retain"]).1 infoV
      (by simp [LS.get, LS.get.go, lookupScope, lookupA, lsW, infoV])
      (by
        simp [translate_expr, OutState.intern_str, OutState.data, lookupA, insertA,
          retain, retain.dupFor, raw_dup, LS.helper, rt_dup_name_i32, auto_cast,
          bind, Except.bind, lsW, lsW2, outX, infoV, OutState.new, leBytes4, hu]
        decide)
  simpa [infoV, release_var] using h

end Wac
